import Mathlib

/-!
Verification of the FactMesh deterministic claim-to-cell resolution and
cross-table consistency engine (`src/factmesh/graph.py`).

The Python code is shallowly embedded: Python `dict`s (which preserve
insertion order) become association lists, and fallible operations return
`Option`.  A Python `float` produced by the number parser is embedded as an
exact decimal `PyFloat` (an integer mantissa over a power of ten) with
rational semantics `PyFloat.toQ : PyFloat → ℚ`; all numeric literals
occurring in the analysed behaviours are short decimal strings, where
IEEE-754 double rounding never flips any comparison the code makes, so the
exact-decimal semantics and the float semantics agree on them.  Python's
`float()` literal grammar is embedded as the finite decimal grammar
(optional sign, digits, decimal point, optional exponent); the `inf`/`nan`
spellings and PEP-515 underscore grouping are not modelled, as no analysed
behaviour involves them.  `str.lower`, `str.strip` and the regex character
classes `\s`/`\d` are modelled on ASCII, which covers every string the
engine manipulates.  Python's default-argument tolerances (`0.15`) become
explicit `tol15` arguments at the call sites that use the default.

The graph builder is embedded in its deterministic mode (`use_llm=False`):
there the `llm_resolutions` dictionary is empty, so the
`if llm_resolution:` branch of the per-value loop is dead code, and the
spec scopes the alternate resolver out of the core.
-/

set_option maxRecDepth 100000

namespace FactMesh

/-! ### Character/string helpers (ASCII models of Python primitives) -/

/-- ASCII model of Python's `\s` / `str.strip` whitespace class. -/
def isPySpace (c : Char) : Bool :=
  c == ' ' || c == '\t' || c == '\n' || c == '\r' || c == '\x0b' || c == '\x0c'

/-- Model of `str.lower` (ASCII). -/
def pyLower (s : String) : String := ⟨s.data.map Char.toLower⟩

/-- Model of `str.strip()`: drop leading and trailing whitespace. -/
def pyStrip (s : String) : String :=
  ⟨((s.data.dropWhile isPySpace).reverse.dropWhile isPySpace).reverse⟩

/-- Does the character list start with the pattern? -/
def charsBeginWith : List Char → List Char → Bool
  | [], _ => true
  | _ :: _, [] => false
  | p :: ps, c :: cs => p == c && charsBeginWith ps cs

/-- Does the character list contain `pat` as a contiguous run?
Model of Python's `pat in s` substring test. -/
def charsContain (pat : List Char) : List Char → Bool
  | [] => pat.isEmpty
  | c :: rest => charsBeginWith pat (c :: rest) || charsContain pat rest

/-- Model of Python's `pat in s` substring test on `String`. -/
def strContainsSub (s pat : String) : Bool := charsContain pat.data s.data

/-- Replace every (non-overlapping, leftmost-first) occurrence of `pat` by
`repl`, the model of Python's `str.replace`; `fuel` is the input length,
which bounds the recursion since `pat` is nonempty at every use site. -/
def replChars (pat repl : List Char) : Nat → List Char → List Char
  | _, [] => []
  | 0, cs => cs
  | fuel + 1, c :: cs =>
    if charsBeginWith pat (c :: cs) && !pat.isEmpty then
      repl ++ replChars pat repl fuel ((c :: cs).drop pat.length)
    else
      c :: replChars pat repl fuel cs

/-- Model of Python's `str.replace` (all occurrences). -/
def strReplace (s pat repl : String) : String :=
  ⟨replChars pat.data repl.data s.data.length s.data⟩

/-- Model of the Python slice `s[:n]`. -/
def strTake (s : String) (n : Nat) : String := ⟨s.data.take n⟩

/-! ### Exact decimal numbers

A value produced by Python's `float()` on a finite decimal literal is
embedded exactly as `mant / 10 ^ exp`.  Comparisons are performed by
integer cross-multiplication, which the bridge lemma
`PyFloat.absSubLe_iff` (below, in the theorems part) identifies with the
rational-number comparison. -/

structure PyFloat where
  mant : Int
  exp : Nat
deriving DecidableEq, Repr

/-- Rational value denoted by an exact decimal. -/
def PyFloat.toQ (x : PyFloat) : ℚ := (x.mant : ℚ) / (10 : ℚ) ^ x.exp

def PyFloat.neg (x : PyFloat) : PyFloat := ⟨-x.mant, x.exp⟩

/-- The comparison `|x - y| ≤ t`, computed exactly on decimal
representations by cross-multiplication. -/
def PyFloat.absSubLe (x y t : PyFloat) : Bool :=
  decide (|x.mant * (10 : Int) ^ y.exp - y.mant * (10 : Int) ^ x.exp| * (10 : Int) ^ t.exp
    ≤ t.mant * (10 : Int) ^ (x.exp + y.exp))

/-- The engine's default absolute tolerance `0.15`. -/
def tol15 : PyFloat := ⟨15, 2⟩

/-! ### NumberParser — embedding of `_normalize_number` (`graph.py:103`,
identical in `src/macroproof/graph.py:86`) -/

/-- Value of a digit run, most significant first. -/
def digitsToNat (ds : List Char) : Nat :=
  ds.foldl (fun a c => a * 10 + (c.toNat - 48)) 0

/-- Parse the exponent part after `e`/`E`: optional sign, then a nonempty
digit run consuming the rest of the string. -/
def parseExpPart (cs : List Char) : Option Int :=
  match cs with
  | '+' :: r => if r.isEmpty || !r.all Char.isDigit then none else some (digitsToNat r : Int)
  | '-' :: r => if r.isEmpty || !r.all Char.isDigit then none else some (-(digitsToNat r : Int))
  | r => if r.isEmpty || !r.all Char.isDigit then none else some (digitsToNat r : Int)

/-- Scale an exact decimal by a (possibly negative) power of ten. -/
def applyExp (x : PyFloat) (e : Int) : PyFloat :=
  if 0 ≤ e then ⟨x.mant * (10 : Int) ^ e.toNat, x.exp⟩ else ⟨x.mant, x.exp + (-e).toNat⟩

/-- Parse an unsigned decimal literal (`123`, `1.5`, `.5`, `3.`, with an
optional exponent part), consuming the whole character list. -/
def parseUnsigned (cs : List Char) : Option PyFloat :=
  let ip := cs.takeWhile Char.isDigit
  match cs.dropWhile Char.isDigit with
  | [] => if ip.isEmpty then none else some ⟨(digitsToNat ip : Int), 0⟩
  | '.' :: rest2 =>
    let fp := rest2.takeWhile Char.isDigit
    if ip.isEmpty && fp.isEmpty then none
    else
      let base : PyFloat :=
        ⟨(digitsToNat ip : Int) * (10 : Int) ^ fp.length + (digitsToNat fp : Int), fp.length⟩
      match rest2.dropWhile Char.isDigit with
      | [] => some base
      | c :: rest4 =>
        if c == 'e' || c == 'E' then (parseExpPart rest4).map (applyExp base) else none
  | c :: rest2 =>
    if (c == 'e' || c == 'E') && !ip.isEmpty then
      (parseExpPart rest2).map (applyExp ⟨(digitsToNat ip : Int), 0⟩)
    else none

/-- Model of Python's `float(s)` on finite decimal literals. -/
def parseFloatQ (s : String) : Option PyFloat :=
  match s.data with
  | '+' :: rest => parseUnsigned rest
  | '-' :: rest => (parseUnsigned rest).map PyFloat.neg
  | cs => parseUnsigned cs

/-- Embedding of `_normalize_number`: missing-data tokens map to `none`;
commas, percent signs and spaces are removed; a fully parenthesized value
denotes a negative; everything else is handed to the float parser,
unparseable residue yielding `none`. -/
def normalizeNumber (s : String) : Option PyFloat :=
  if s == "" || ["", "...", "—", "n.a.", "n/a"].contains (pyStrip s) then none
  else
    let s1 := (pyStrip s).data.filter (fun c => !(c == ',' || c == '%' || c == ' '))
    let s2 : List Char :=
      if s1.head? == some '(' && s1.getLast? == some ')' then '-' :: (s1.drop 1).dropLast
      else s1
    parseFloatQ ⟨s2⟩

/-- Embedding of `_numbers_match` (`graph.py:116`): both strings parse and
the absolute difference is within the (absolute) tolerance.  The Python
default `tolerance=0.15` becomes the explicit `tol15` at every call site
that uses the default. -/
def numbersMatch (a b : String) (tol : PyFloat) : Bool :=
  match normalizeNumber a, normalizeNumber b with
  | some na, some nb => na.absSubLe nb tol
  | _, _ => false

/-! ### YearColumnResolver — embedding of `_extract_year_from_col`
(`graph.py:170`): `re.match(r'(\d{4})', col)` succeeds exactly when the
label starts with four digits, and yields those four digits. -/

def extractYearFromCol (col : String) : Option String :=
  match col.data with
  | a :: b :: c :: d :: _ =>
    if a.isDigit && b.isDigit && c.isDigit && d.isDigit then some ⟨[a, b, c, d]⟩ else none
  | _ => none

/-! ### KeywordIndex — embedding of `_variable_keywords` (`graph.py:176`) -/

/-- The curated variable-family keyword table, in source order (a Python
dict iterates in insertion order). -/
def keywordMap : List (String × List String) :=
  [("real_gdp", ["real gdp", "gdp growth", "gdp, real", "real gross domestic"]),
   ("inflation", ["inflation", "consumer price", "cpi", "price index"]),
   ("fiscal", ["fiscal", "overall balance", "primary balance", "budget"]),
   ("current_account", ["current account", "external current"]),
   ("debt", ["debt", "gross debt", "public debt", "government debt"]),
   ("revenue", ["revenue", "total revenue", "government revenue"]),
   ("expenditure", ["expenditure", "total expenditure", "government spending"]),
   ("reserves", ["reserves", "international reserves", "gross reserves"]),
   ("exchange", ["exchange rate", "nominal exchange", "real exchange", "neer", "reer"]),
   ("interest", ["interest rate", "policy rate", "monetary policy"]),
   ("unemployment", ["unemployment", "employment"]),
   ("exports", ["exports", "total exports"]),
   ("imports", ["imports", "total imports"]),
   ("money", ["money supply", "broad money", "m2", "m3"]),
   ("credit", ["credit", "private sector credit", "private credit"]),
   ("lending", ["lending", "lending rate"])]

/-- Is the character a separator for the fallback tokenization
(`re.split(r'[_\s]+', ...)`)?  Splitting on every separator character
instead of on separator runs only inserts extra empty tokens, which the
`length > 2` filter below removes, so the composed function agrees with
the source. -/
def isSepChar (c : Char) : Bool := c == '_' || isPySpace c

def splitSepsAux : List Char → List Char → List String
  | acc, [] => [⟨acc.reverse⟩]
  | acc, c :: rest =>
    if isSepChar c then ⟨acc.reverse⟩ :: splitSepsAux [] rest
    else splitSepsAux (c :: acc) rest

def splitSeps (s : String) : List String := splitSepsAux [] s.data

/-- Embedding of `_variable_keywords`: first matching curated family wins;
unrecognized identifiers fall back to tokens longer than two characters. -/
def variableKeywords (v : String) : List String :=
  let variableLower := strReplace (pyLower v) "_" " "
  match keywordMap.find? (fun kv =>
      strContainsSub variableLower kv.1 || kv.2.any (fun kw => strContainsSub variableLower kw)) with
  | some kv => kv.2
  | none => (splitSeps variableLower).filter (fun w => w.length > 2)

/-! ### CellResolver — embedding of `_find_value_in_table` (`graph.py:127`)

A table's `data` is an insertion-ordered mapping from row label to an
insertion-ordered mapping from column label to raw cell string (the
`isinstance(row_data, dict)` guards of the source always succeed on this
shape). -/

/-- One row: ordered column-label/value pairs. -/
abbrev RowData := List (String × String)

/-- One table's `data`: ordered row-label/row pairs. -/
abbrev TData := List (String × RowData)

/-- A search result `(value, row, column)`. -/
abbrev Found := String × String × String

/-- First column of the row whose resolved year is `y` and whose value
tolerance-matches `target` (the `break`-on-first-hit loop). -/
def findYearCol (y target : String) (cols : RowData) : Option (String × String) :=
  cols.find? (fun cv => extractYearFromCol cv.1 == some y && numbersMatch target cv.2 tol15)

/-- First column of the row whose value tolerance-matches `target`. -/
def findAnyCol (target : String) (cols : RowData) : Option (String × String) :=
  cols.find? (fun cv => numbersMatch target cv.2 tol15)

/-- Does the (lowercased) row label contain any of the keywords? -/
def rowRelevant (kws : List String) (rowLabel : String) : Bool :=
  kws.any (fun kw => strContainsSub (pyLower rowLabel) kw)

/-- Pass-1 search inside a single keyword-relevant row: with a year, the
year-scoped columns of this row first, then any tolerance-matching column
of this row. -/
def pass1Row (year : Option String) (target : String) (cols : RowData) :
    Option (String × String) :=
  match year with
  | some y =>
    match findYearCol y target cols with
    | some cv => some cv
    | none => findAnyCol target cols
  | none => findAnyCol target cols

/-- The pair `(col, val)` repackaged as the `(value, row, col)` the function returns. -/
def toFound (rowLabel : String) (cv : String × String) : Found := (cv.2, rowLabel, cv.1)

/-- Embedding of `_find_value_in_table`: pass 1 walks the rows in order,
handling each keyword-relevant row completely (year-scoped columns of that
row, then any column of that row) before moving on; pass 2, reached only
when pass 1 fails and a year was given, scans every row's columns for the
year plus a tolerance match. -/
def findValueInTable (data : TData) (variableHint : String) (year : Option String)
    (targetValue : String) : Option Found :=
  match data.findSome? (fun rw =>
      if rowRelevant (variableKeywords (pyLower variableHint)) rw.1 then
        (pass1Row year targetValue rw.2).map (toFound rw.1)
      else none) with
  | some r => some r
  | none =>
    match year with
    | some y =>
      data.findSome? (fun rw => (findYearCol y targetValue rw.2).map (toFound rw.1))
    | none => none

/-! #### The two candidate orderings compared for the layering claim -/

/-- All hits of one keyword-relevant row in the order the code prefers
them: year-scoped matches first, then unscoped matches. -/
def rowHitList (year : Option String) (target : String) (rowLabel : String)
    (cols : RowData) : List Found :=
  ((match year with
    | some y =>
      cols.filter (fun cv => extractYearFromCol cv.1 == some y && numbersMatch target cv.2 tol15)
    | none => []) ++ cols.filter (fun cv => numbersMatch target cv.2 tol15)).map (toFound rowLabel)

/-- All pass-2 hits (year-scoped, every row) in row order. -/
def pass2HitList (year : Option String) (target : String) (data : TData) : List Found :=
  match year with
  | some y =>
    data.flatMap (fun rw =>
      (rw.2.filter (fun cv =>
          extractYearFromCol cv.1 == some y && numbersMatch target cv.2 tol15)).map
        (toFound rw.1))
  | none => []

/-- The per-row interleaved search order: for each keyword-relevant row in
table order, that row's year-scoped hits, then that row's unscoped hits;
after all relevant rows, the pass-2 hits.  The first candidate in this
order is the result. -/
def resolveInterleaved (data : TData) (variableHint : String) (year : Option String)
    (targetValue : String) : Option Found :=
  (((data.filter (fun rw => rowRelevant (variableKeywords (pyLower variableHint)) rw.1)).flatMap
      (fun rw => rowHitList year targetValue rw.1 rw.2))
    ++ pass2HitList year targetValue data).head?

/-- The layered search order stated by the specification: pass 1 first
exhausts the year-scoped search over ALL keyword-relevant rows, then falls
back to unscoped matches within those same rows, and only then runs
pass 2.  This definition follows the spec's words, for comparison with
`findValueInTable`, which is translated from the source. -/
def resolveLayeredSpec (data : TData) (variableHint : String) (year : Option String)
    (targetValue : String) : Option Found :=
  let rel := data.filter (fun rw => rowRelevant (variableKeywords (pyLower variableHint)) rw.1)
  ((((match year with
      | some y => rel.flatMap (fun rw =>
          (rw.2.filter (fun cv =>
              extractYearFromCol cv.1 == some y && numbersMatch targetValue cv.2 tol15)).map
            (toFound rw.1))
      | none => []) : List Found)
    ++ rel.flatMap (fun rw =>
        (rw.2.filter (fun cv => numbersMatch targetValue cv.2 tol15)).map (toFound rw.1)))
    ++ pass2HitList year targetValue data).head?

/-! ### CrossTableConsistencyChecker — embedding of
`_check_cross_table_consistency` and `_normalize_row_name`
(`graph.py:208`, `graph.py:287`) -/

/-- Remove each shortest parenthesized run, the model of
`re.sub(r'\(.*?\)', '', s)`; an unmatched `(` is kept.  `fuel` is the
input length, which bounds the recursion since every step consumes at
least one character. -/
def stripParensFuel : Nat → List Char → List Char
  | 0, cs => cs
  | _, [] => []
  | fuel + 1, c :: rest =>
    if c == '(' && rest.contains ')' then
      stripParensFuel fuel ((rest.dropWhile (fun d => d != ')')).drop 1)
    else c :: stripParensFuel fuel rest

def stripParens (cs : List Char) : List Char := stripParensFuel cs.length cs

/-- Collapse each whitespace run to a single space, the model of
`re.sub(r'\s+', ' ', s)`; the flag records whether the previous character
was whitespace. -/
def collapseWsAux : Bool → List Char → List Char
  | _, [] => []
  | prev, c :: rest =>
    if isPySpace c then
      if prev then collapseWsAux true rest else ' ' :: collapseWsAux true rest
    else c :: collapseWsAux false rest

/-- Embedding of `_normalize_row_name`: lowercase and strip, remove the
footnote markers `" 1/"` … `" 5/"`, remove parenthesized runs, strip,
collapse whitespace; names shorter than 3 characters are discarded. -/
def normalizeRowName (rowLabel : String) : Option String :=
  let s0 := pyStrip (pyLower rowLabel)
  let s1 := strReplace (strReplace (strReplace (strReplace (strReplace
    s0 " 1/" "") " 2/" "") " 3/" "") " 4/" "") " 5/" ""
  let s2 := pyStrip ⟨stripParens s1.data⟩
  let s3 : String := ⟨collapseWsAux false s2.data⟩
  if s3.length < 3 then none else some s3

/-- One member of a normalized-name group: the table it came from, its
original row label and its columns. -/
structure CTEntry where
  tableId : String
  rowLabel : String
  cols : RowData
deriving DecidableEq, Repr

/-- One contributing entry of a `CrossTableResult` (the dict
`{"table_id", "row", "col", "value"}` of the source). -/
structure CTValue where
  table_id : String
  row : String
  col : String
  value : String
deriving DecidableEq, Repr

/-- Embedding of the `CrossTableResult` dataclass; `varName` is the
source's `variable` field (a reserved word here). -/
structure CrossTableResult where
  varName : String
  year : String
  entries : List CTValue
  status : String
  detail : String
deriving DecidableEq, Repr

/-- The per-year value collection loop (`graph.py:245`): each entry
contributes the first column of its row whose resolved year matches, via
the `break` after the first append, and contributes nothing when no column
matches. -/
def valuesForYear (year : String) : List CTEntry → List CTValue
  | [] => []
  | e :: rest =>
    match e.cols.find? (fun cv => extractYearFromCol cv.1 == some year) with
    | some cv => ⟨e.tableId, e.rowLabel, cv.1, cv.2⟩ :: valuesForYear year rest
    | none => valuesForYear year rest

/-- The status computation (`graph.py:257`): at least two contributing
values, at least two of them parseable, and CONSISTENT exactly when every
later parseable value is within tolerance of the first parseable value. -/
def groupYearStatus (tol : PyFloat) (values : List CTValue) : Option String :=
  if values.length < 2 then none
  else
    match (values.map (fun v => v.value)).filterMap normalizeNumber with
    | n0 :: n1 :: rest =>
      some (if (n1 :: rest).all (fun n => n0.absSubLe n tol) then "CONSISTENT"
            else "INCONSISTENT")
    | _ => none

/-- One (group, year) evaluation: the collected values, the status and the
human-readable detail line of the source. -/
def processGroupYear (tol : PyFloat) (normName year : String) (entries : List CTEntry) :
    Option CrossTableResult :=
  let values := valuesForYear year entries
  match groupYearStatus tol values with
  | none => none
  | some st =>
    let detail :=
      if st == "CONSISTENT" then
        normName ++ " (" ++ year ++ "): " ++
          (match values with | v :: _ => v.value | [] => "") ++ " across " ++
          toString values.length ++ " tables"
      else
        normName ++ " (" ++ year ++ "): " ++
          String.intercalate " vs " (values.map (fun v => v.value ++ " (" ++ v.table_id ++ ")"))
    some ⟨normName, year, values, st, detail⟩

/-- Append an entry to its key's group, preserving first-insertion key
order (`dict.setdefault(...).append(...)`). -/
def insertIndexEntry : List (String × List CTEntry) → String → CTEntry →
    List (String × List CTEntry)
  | [], k, e => [(k, [e])]
  | (k', es) :: rest, k, e =>
    if k' == k then (k', es ++ [e]) :: rest else (k', es) :: insertIndexEntry rest k e

/-- Embedding of the table-input record; only the fields the analysed
behaviours read are modelled (`page_num`, `columns`, `units` feed node
metadata that no claim concerns). -/
structure TableInput where
  table_id : String
  table_title : Option String := none
  data : TData
deriving DecidableEq, Repr

/-- The row index `normalized_row_name → [(table_id, row_label, row_data)]`
(`graph.py:221`), in key-insertion order. -/
def buildRowIndex (tables : List TableInput) : List (String × List CTEntry) :=
  tables.foldl (fun idx t =>
    t.data.foldl (fun idx2 rw =>
      match normalizeRowName rw.1 with
      | some nm => insertIndexEntry idx2 nm ⟨t.table_id, rw.1, rw.2⟩
      | none => idx2) idx) []

/-- Code-point lexicographic order on strings, the model of Python's
string comparison used by `sorted`. -/
def charListLe : List Char → List Char → Bool
  | [], _ => true
  | _ :: _, [] => false
  | a :: as, b :: bs =>
    if a.val < b.val then true else if b.val < a.val then false else charListLe as bs

def strLe (a b : String) : Bool := charListLe a.data b.data

def insertSortedStr (x : String) : List String → List String
  | [] => [x]
  | y :: ys => if strLe x y then x :: y :: ys else y :: insertSortedStr x ys

/-- Ascending sort, the model of Python's `sorted` on the year set (the
input is duplicate-free, so stability is irrelevant). -/
def sortStrings (l : List String) : List String := l.foldr insertSortedStr []

def dedupKeepFirst (seen : List String) : List String → List String
  | [] => []
  | x :: xs => if seen.contains x then dedupKeepFirst seen xs else x :: dedupKeepFirst (x :: seen) xs

/-- The sorted union of years resolvable from any member row's columns
(`all_years` of the source: a set, then `sorted`). -/
def groupYears (entries : List CTEntry) : List String :=
  sortStrings (dedupKeepFirst []
    (entries.flatMap (fun e => e.cols.filterMap (fun cv => extractYearFromCol cv.1))))

/-- Embedding of `_check_cross_table_consistency`: group rows by
normalized name, keep groups with at least two member rows, and evaluate
every year of the group's year union. -/
def checkCrossTableConsistency (tables : List TableInput) (tol : PyFloat) :
    List CrossTableResult :=
  (buildRowIndex tables).flatMap (fun g =>
    if g.2.length < 2 then []
    else (groupYears g.2).filterMap (fun year => processGroupYear tol g.1 year g.2))

/-! ### VerificationGraphBuilder — embedding of `build_graph`,
`_try_deterministic_match` and the schema dataclasses (`graph.py:302`,
`graph.py:492`), in deterministic mode -/

/-- One `values_mentioned` record; `var` is the source's `variable` field
(a reserved word here). -/
structure ValueMention where
  var : String
  value : String
  year : String
deriving DecidableEq, Repr

/-- One claim record; `variables_referenced` only feeds node metadata that
no claim concerns and is not modelled. -/
structure ClaimInput where
  claim_text : String
  page_or_section : String
  likely_table : String
  values_mentioned : List ValueMention
deriving DecidableEq, Repr

/-- Embedding of `GraphNode`; the `metadata` dict feeds no analysed
behaviour and is not modelled. -/
structure GraphNode where
  id : String
  type : String
  label : String
deriving DecidableEq, Repr

/-- Embedding of `GraphEdge`; the `metadata` dict feeds no analysed
behaviour and is not modelled. -/
structure GraphEdge where
  source : String
  target : String
  type : String
deriving DecidableEq, Repr

/-- Embedding of the `VerificationResult` dataclass; `varName` is the
source's `variable` field. -/
structure VerificationResult where
  claim_id : String
  status : String
  claim_value : Option String := none
  table_value : Option String := none
  table_id : Option String := none
  varName : Option String := none
  year : Option String := none
  detail : String := ""
  resolution_method : String := "deterministic"
deriving DecidableEq, Repr

/-- The mutable graph state threaded through claim processing. -/
structure GState where
  nodes : List GraphNode := []
  edges : List GraphEdge := []
  verifs : List VerificationResult := []
deriving DecidableEq, Repr

/-- Cell node identifier: `f"cell_{t}_{row}_{col}".replace(" ", "_")[:80]`. -/
def cellId (tableId rowLabel colLabel : String) : String :=
  strTake (strReplace ("cell_" ++ tableId ++ "_" ++ rowLabel ++ "_" ++ colLabel) " " "_") 80

/-- The `if not any(n.id == node_id for n in graph.nodes): add_node(...)`
deduplication pattern of the source. -/
def addNodeDedup (g : GState) (n : GraphNode) : GState :=
  if g.nodes.any (fun m => m.id == n.id) then g else { g with nodes := g.nodes ++ [n] }

/-- Dict lookup `tables[tid]` on the id-keyed table collection (ids are
unique after dict-keyed loading). -/
def lookupTable (tables : List TableInput) (tid : String) : Option TableInput :=
  tables.find? (fun t => t.table_id == tid)

/-- The table search order of `_try_deterministic_match`: the
`likely_table` hint first when it names a known table, then every other
table in load order. -/
def searchTablesFor (tables : List TableInput) (likelyTable : String) : List TableInput :=
  (match (if likelyTable != "unknown" then lookupTable tables likelyTable else none) with
   | some t => [t]
   | none => []) ++ tables.filter (fun t => t.table_id != likelyTable)

/-- The table loop of `_try_deterministic_match`: the first table where
`_find_value_in_table` hits yields the cell node (deduplicated), the
`contains_cell` and `verified_by` edges and the MATCH/MISMATCH
verification, and stops the search. -/
def tryTables (g : GState) (claimId varHint valueStr year : String) :
    List TableInput → GState × Bool
  | [] => (g, false)
  | t :: rest =>
    match findValueInTable t.data varHint (if year != "unknown" then some year else none)
        valueStr with
    | some (cellValue, matchedRow, matchedCol) =>
      let cid := cellId t.table_id matchedRow matchedCol
      let g1 : GState := addNodeDedup g
        ⟨cid, "cell", matchedRow ++ " / " ++ matchedCol ++ " = " ++ cellValue⟩
      let g2 : GState := { g1 with edges := g1.edges ++ [⟨t.table_id, cid, "contains_cell"⟩] }
      let status := if numbersMatch valueStr cellValue tol15 then "MATCH" else "MISMATCH"
      let g3 : GState := { g2 with edges := g2.edges ++ [⟨claimId, cid, "verified_by"⟩] }
      let g4 : GState := { g3 with verifs := g3.verifs ++
        [{ claim_id := claimId, status := status, claim_value := some valueStr,
           table_value := some cellValue, table_id := some t.table_id,
           varName := some varHint, year := some year,
           detail := "Claim: " ++ valueStr ++ " | Table: " ++ cellValue ++ " (" ++
             matchedRow ++ " / " ++ matchedCol ++ ")" }] }
      (g4, true)
    | none => tryTables g claimId varHint valueStr year rest

/-- Embedding of `_try_deterministic_match`. -/
def tryDeterministicMatch (g : GState) (claimId varHint valueStr year likelyTable : String)
    (tables : List TableInput) : GState × Bool :=
  tryTables g claimId varHint valueStr year (searchTablesFor tables likelyTable)

/-- The state after the variable-node and `mentions_variable`-edge step of
the per-value loop (the `g1`/`g2` intermediate states of the source,
named so the theorems below can speak about them). -/
def afterVarNode (g : GState) (claimId : String) (vm : ValueMention) : GState :=
  let g1 : GState := addNodeDedup g ⟨"var_" ++ vm.var, "variable", vm.var⟩
  { g1 with edges := g1.edges ++ [⟨claimId, "var_" ++ vm.var, "mentions_variable"⟩] }

/-- The per-`ValueMention` body of the claim loop (`graph.py:389`): skip
empty/"unknown" values entirely; otherwise add the (deduplicated) variable
node and the `mentions_variable` edge, try the deterministic match, and
record UNVERIFIABLE when nothing was found. -/
def processValue (tables : List TableInput) (claimId likelyTable : String) (g : GState)
    (vm : ValueMention) : GState :=
  if vm.value == "" || vm.value == "unknown" then g
  else
    let res := tryDeterministicMatch (afterVarNode g claimId vm) claimId vm.var vm.value
      vm.year likelyTable tables
    if res.2 then res.1
    else { res.1 with verifs := res.1.verifs ++
      [{ claim_id := claimId, status := "UNVERIFIABLE", claim_value := some vm.value,
         varName := some vm.var, year := some vm.year,
         detail := "Value " ++ vm.value ++ " for " ++ vm.var ++ " (" ++ vm.year ++
           ") not found in any table" }] }

/-- The state after the claim-node and `references`-edge step of the
per-claim body (the `g1`/`g2` intermediate states of the source, named so
the theorems below can speak about them). -/
def claimHeader (tables : List TableInput) (g : GState) (idx : Nat) (c : ClaimInput) :
    GState :=
  let g1 : GState :=
    { g with nodes := g.nodes ++
        [⟨"claim_" ++ toString idx, "claim", strTake c.claim_text 120⟩] }
  if c.likely_table != "unknown" && (lookupTable tables c.likely_table).isSome then
    { g1 with edges := g1.edges ++
        [⟨"claim_" ++ toString idx, c.likely_table, "references"⟩] }
  else g1

/-- The per-claim body of `build_graph`: add the claim node, the
`references` edge when the hint names a known table, then either the
single synthetic QUALITATIVE result (no value mentions) or the
per-mention loop. -/
def processClaim (tables : List TableInput) (g : GState) (idx : Nat) (c : ClaimInput) :
    GState :=
  if c.values_mentioned.isEmpty then
    { claimHeader tables g idx c with verifs := (claimHeader tables g idx c).verifs ++
      [{ claim_id := "claim_" ++ toString idx, status := "QUALITATIVE",
         detail := "No numeric values to verify" }] }
  else
    c.values_mentioned.foldl
      (processValue tables ("claim_" ++ toString idx) c.likely_table)
      (claimHeader tables g idx c)

/-- The completed output graph. -/
structure BuiltGraph where
  nodes : List GraphNode
  edges : List GraphEdge
  verifications : List VerificationResult
  cross_table_checks : List CrossTableResult
deriving DecidableEq, Repr

/-- Embedding of `build_graph` in deterministic mode: table nodes first,
then every claim in order (ids `claim_0`, `claim_1`, …), then the
cross-table consistency pass over the complete table set. -/
def buildGraph (claims : List ClaimInput) (tables : List TableInput) : BuiltGraph :=
  let g0 : GState :=
    { nodes := tables.map (fun t => ⟨t.table_id, "table", t.table_title.getD t.table_id⟩),
      edges := [], verifs := [] }
  let g1 := claims.enum.foldl (fun acc ic => processClaim tables acc ic.1 ic.2) g0
  ⟨g1.nodes, g1.edges, g1.verifs, checkCrossTableConsistency tables tol15⟩

/-! ### Concrete instances used to settle individual claims -/

/-- Two keyword-relevant rows: the first has only an off-year match, the
second a year-scoped match for 2023. -/
def layeringCexData : TData :=
  [("Public debt A", [("2020", "5.0")]),
   ("Public debt B", [("2023", "5.0")])]

/-- Group member from table T1 whose row carries both years. -/
def ctE1 : CTEntry := ⟨"T1", "Public debt", [("2022", "10.0"), ("2023", "11.0")]⟩

/-- Group member from table T2 whose row carries only 2022. -/
def ctE2 : CTEntry := ⟨"T2", "Public debt", [("2022", "10.0")]⟩

/-- Two tables sharing the normalized row name "public debt", where T2
lacks a 2023 column. -/
def ctCexTables : List TableInput :=
  [⟨"T1", none, [("Public debt", [("2022", "10.0"), ("2023", "11.0")])]⟩,
   ⟨"T2", none, [("Public debt", [("2022", "10.0")])]⟩]

/-- Two tables with a "fiscal balance" row for 2023, values 1.2 and 1.3. -/
def fiscalTablesA : List TableInput :=
  [⟨"T1", none, [("Fiscal balance", [("2023", "1.2")])]⟩,
   ⟨"T2", none, [("Fiscal balance", [("2023", "1.3")])]⟩]

/-- Two tables with a "fiscal balance" row for 2023, values 1.2 and 1.5. -/
def fiscalTablesB : List TableInput :=
  [⟨"T1", none, [("Fiscal balance", [("2023", "1.2")])]⟩,
   ⟨"T2", none, [("Fiscal balance", [("2023", "1.5")])]⟩]

/-- Two distinct claims that both resolve to the same cell
(T1, "Public debt", "2023"). -/
def dedupClaims : List ClaimInput :=
  [⟨"Debt was 3.2 percent of GDP.", "p1", "unknown", [⟨"debt", "3.2", "2023"⟩]⟩,
   ⟨"Debt reached 3.2 percent.", "p2", "unknown", [⟨"debt", "3.2", "2023"⟩]⟩]

/-- The single table both `dedupClaims` resolve into. -/
def dedupTables : List TableInput :=
  [⟨"T1", none, [("Public debt", [("2023", "3.2")])]⟩]

/-- A row label long enough that `cell_T1_<label>_` already exceeds 80
characters, so the column part of the cell id is truncated away. -/
def longRowLabel : String :=
  "Public debt of the consolidated central government including guaranteed debt and arrears, gross"

/-- Two claims resolving to the two distinct columns of the long row. -/
def truncClaims : List ClaimInput :=
  [⟨"Debt was 1.1 in 2022.", "p1", "unknown", [⟨"debt", "1.1", "2022"⟩]⟩,
   ⟨"Debt was 2.2 in 2023.", "p2", "unknown", [⟨"debt", "2.2", "2023"⟩]⟩]

/-- The single table holding the long row with its two year columns. -/
def truncTables : List TableInput :=
  [⟨"T1", none, [(longRowLabel, [("2022", "1.1"), ("2023", "2.2")])]⟩]

/-! ## Theorems -/

/-! ### The exact-decimal comparison agrees with the rational one -/

theorem PyFloat.absSubLe_iff (x y t : PyFloat) :
    x.absSubLe y t = true ↔ |x.toQ - y.toQ| ≤ t.toQ := by
  have hp : (0 : ℚ) < (10 : ℚ) ^ x.exp := by positivity
  have hq : (0 : ℚ) < (10 : ℚ) ^ y.exp := by positivity
  have hr : (0 : ℚ) < (10 : ℚ) ^ t.exp := by positivity
  rw [PyFloat.absSubLe, decide_eq_true_iff, PyFloat.toQ, PyFloat.toQ, PyFloat.toQ,
    div_sub_div _ _ (ne_of_gt hp) (ne_of_gt hq), abs_div,
    abs_of_pos (mul_pos hp hq), div_le_div_iff₀ (mul_pos hp hq) hr,
    ← @Int.cast_le ℚ]
  push_cast
  rw [pow_add]
  ring_nf

theorem PyFloat.absSubLe_comm (x y t : PyFloat) :
    x.absSubLe y t = y.absSubLe x t := by
  rw [PyFloat.absSubLe, PyFloat.absSubLe, decide_eq_decide, abs_sub_comm, Nat.add_comm]

theorem PyFloat.absSubLe_self (x t : PyFloat) (ht : 0 ≤ t.mant) :
    x.absSubLe x t = true := by
  rw [PyFloat.absSubLe, decide_eq_true_iff, sub_self, abs_zero, zero_mul]
  positivity

theorem tol15_toQ : tol15.toQ = 15 / 100 := by norm_num [tol15, PyFloat.toQ]

/-! ### Claims about the number utilities -/

/-- C4: `NumberParser.parse` is total and never raises: the missing-data
tokens (empty, "...", an em-dash, "n.a.", "n/a", also after stripping
whitespace) map to NONE; thousands separators, percent signs and
whitespace are stripped; a fully parenthesized value such as "(3.2)"
parses to its negation −3.2; and non-numeric residue yields NONE rather
than an error — every input yields either NONE or a value. -/
theorem claim4_parser_total :
    normalizeNumber "" = none
  ∧ normalizeNumber "..." = none
  ∧ normalizeNumber "—" = none
  ∧ normalizeNumber "n.a." = none
  ∧ normalizeNumber "n/a" = none
  ∧ normalizeNumber "  ...  " = none
  ∧ normalizeNumber "1,234.5" = some ⟨12345, 1⟩
  ∧ (PyFloat.mk 12345 1).toQ = 1234.5
  ∧ normalizeNumber " 12 %" = some ⟨12, 0⟩
  ∧ (PyFloat.mk 12 0).toQ = 12
  ∧ normalizeNumber "(3.2)" = some ⟨-32, 1⟩
  ∧ (PyFloat.mk (-32) 1).toQ = -3.2
  ∧ normalizeNumber "abc" = none
  ∧ normalizeNumber "1.2.3" = none
  ∧ normalizeNumber "12a" = none
  ∧ ∀ s : String, normalizeNumber s = none ∨ ∃ q : PyFloat, normalizeNumber s = some q := by
  refine ⟨by decide, by decide, by decide, by decide, by decide, by decide, by decide,
    by norm_num [PyFloat.toQ], by decide, by norm_num [PyFloat.toQ], by decide,
    by norm_num [PyFloat.toQ], by decide, by decide, by decide, fun s => ?_⟩
  cases h : normalizeNumber s with
  | none => exact Or.inl rfl
  | some q => exact Or.inr ⟨q, rfl⟩

/-- C5: `numbers_match` at the default tolerance returns false whenever
either side fails to parse, and otherwise is true exactly when the
absolute difference of the parsed values is at most 0.15; at the boundary,
`numbers_match("3.00","3.15")` is true and `numbers_match("3.00","3.16")`
is false. -/
theorem claim5_tolerance_match :
    (∀ a b : String,
      (normalizeNumber a = none ∨ normalizeNumber b = none) →
        numbersMatch a b tol15 = false)
  ∧ (∀ a b : String,
      numbersMatch a b tol15 = true
        ↔ ∃ x y : PyFloat, normalizeNumber a = some x ∧ normalizeNumber b = some y
            ∧ |x.toQ - y.toQ| ≤ 15 / 100)
  ∧ numbersMatch "3.00" "3.15" tol15 = true
  ∧ numbersMatch "3.00" "3.16" tol15 = false := by
  refine ⟨fun a b h => ?_, fun a b => ?_, by decide, by decide⟩
  · rcases h with h | h
    · simp [numbersMatch, h]
    · cases ha : normalizeNumber a <;> simp [numbersMatch, ha, h]
  · cases ha : normalizeNumber a <;> cases hb : normalizeNumber b <;>
      simp [numbersMatch, ha, hb, PyFloat.absSubLe_iff, tol15_toQ]

/-- C5 witness: the first conjunct applied at an unparseable left side. -/
theorem claim5_tolerance_match_witness : numbersMatch "n/a" "3.0" tol15 = false :=
  claim5_tolerance_match.1 "n/a" "3.0" (Or.inl (by decide))

/-- C6 counterexample: `numbers_match` is NOT reflexive as claimed — on
the empty string (or any unparseable string) it returns false, because a
NONE parse on either side forces false. -/
theorem claim6_counterexample :
    numbersMatch "" "" tol15 = false ∧ numbersMatch "abc" "abc" tol15 = false := by
  exact ⟨by decide, by decide⟩

/-- C6 as amended: `numbers_match` is symmetric for all strings, and
reflexive on exactly the strings whose parse is not NONE. -/
theorem claim6_amended :
    (∀ a b : String, numbersMatch a b tol15 = numbersMatch b a tol15)
  ∧ (∀ a : String, (normalizeNumber a).isSome → numbersMatch a a tol15 = true) := by
  constructor
  · intro a b
    cases ha : normalizeNumber a <;> cases hb : normalizeNumber b <;>
      simp [numbersMatch, ha, hb, PyFloat.absSubLe_comm]
  · intro a ha
    obtain ⟨x, hx⟩ := Option.isSome_iff_exists.mp ha
    simp [numbersMatch, hx, PyFloat.absSubLe_self x tol15 (by norm_num [tol15])]

/-- C6 witness: symmetry and parseable-reflexivity at concrete inputs. -/
theorem claim6_amended_witness :
    numbersMatch "3.2" "abc" tol15 = numbersMatch "abc" "3.2" tol15
  ∧ numbersMatch "3.2" "3.2" tol15 = true :=
  ⟨claim6_amended.1 "3.2" "abc", claim6_amended.2 "3.2" (by decide)⟩

/-! ### Helper lemmas: first-hit searches as heads of candidate lists -/

theorem find?_eq_head?_filter {α : Type} (p : α → Bool) (l : List α) :
    l.find? p = (l.filter p).head? := by
  induction l with
  | nil => rfl
  | cons x xs ih =>
    cases h : p x with
    | true =>
      simp only [List.find?_cons, List.filter_cons, h, cond_true, if_true, List.head?_cons]
    | false =>
      simp only [List.find?_cons, List.filter_cons, h, cond_false, if_false]
      exact ih

theorem pass1Row_eq_head? (year : Option String) (target rowLabel : String) (cols : RowData) :
    (pass1Row year target cols).map (toFound rowLabel)
      = (rowHitList year target rowLabel cols).head? := by
  cases year with
  | none =>
    rw [pass1Row, rowHitList, findAnyCol, find?_eq_head?_filter, List.nil_append,
      List.head?_map]
  | some y =>
    rw [pass1Row, findYearCol, findAnyCol, find?_eq_head?_filter, find?_eq_head?_filter,
      rowHitList, List.map_append, List.head?_append, List.head?_map, List.head?_map]
    cases h : (cols.filter fun cv =>
        extractYearFromCol cv.1 == some y && numbersMatch target cv.2 tol15).head? with
    | some cv => simp [h]
    | none => simp [h]

theorem pass1_eq (kws : List String) (year : Option String) (target : String) :
    ∀ data : TData,
      (data.findSome? fun rw =>
          if rowRelevant kws rw.1 then (pass1Row year target rw.2).map (toFound rw.1)
          else none)
        = ((data.filter fun rw => rowRelevant kws rw.1).flatMap
            fun rw => rowHitList year target rw.1 rw.2).head?
  | [] => rfl
  | rw0 :: rest => by
    cases h : rowRelevant kws rw0.1 with
    | false =>
      simp only [List.findSome?_cons, List.filter_cons, h, Bool.false_eq_true, if_false,
        reduceIte]
      exact pass1_eq kws year target rest
    | true =>
      simp only [List.findSome?_cons, List.filter_cons, h, if_true, reduceIte,
        List.flatMap_cons, List.head?_append]
      rw [← pass1_eq kws year target rest, ← pass1Row_eq_head? year target rw0.1 rw0.2]
      cases hp : (pass1Row year target rw0.2).map (toFound rw0.1) with
      | some r => simp [hp]
      | none => simp [hp]

theorem pass2_eq (y target : String) :
    ∀ data : TData,
      (data.findSome? fun rw => (findYearCol y target rw.2).map (toFound rw.1))
        = (pass2HitList (some y) target data).head?
  | [] => rfl
  | rw0 :: rest => by
    simp only [List.findSome?_cons, pass2HitList, List.flatMap_cons, List.head?_append]
    have ih := pass2_eq y target rest
    simp only [pass2HitList] at ih
    rw [← ih, findYearCol, find?_eq_head?_filter, ← List.head?_map]
    cases hp : ((rw0.2.filter fun cv =>
        extractYearFromCol cv.1 == some y && numbersMatch target cv.2 tol15).map
          (toFound rw0.1)).head? with
    | some r => simp [hp]
    | none => simp [hp]

/-! ### C1 — the layering of the search passes -/

/-- C1 counterexample: with two keyword-relevant rows where only the
second has a year-scoped hit, the code returns the FIRST relevant row's
off-year match, while the claimed layered order (exhaust the year-scoped
search over all relevant rows first) would return the second row's
year-scoped match. -/
theorem claim1_counterexample :
    findValueInTable layeringCexData "debt" (some "2023") "5.0"
      = some ("5.0", "Public debt A", "2020")
  ∧ resolveLayeredSpec layeringCexData "debt" (some "2023") "5.0"
      = some ("5.0", "Public debt B", "2023")
  ∧ (("5.0", "Public debt A", "2020") : Found) ≠ ("5.0", "Public debt B", "2023") :=
  ⟨by decide, by decide, by decide⟩

/-- C1 as amended: the search is layered per row, not globally — the
result is the first hit when, for each keyword-relevant row in table
order, that row's year-scoped matches are considered before that row's
unscoped matches, and only after all relevant rows fail are pass-2's
year-scoped matches over all rows considered. -/
theorem claim1_amended_interleaved (data : TData) (variableHint : String)
    (year : Option String) (targetValue : String) :
    findValueInTable data variableHint year targetValue
      = resolveInterleaved data variableHint year targetValue := by
  rw [findValueInTable.eq_def, resolveInterleaved, List.head?_append,
    pass1_eq (variableKeywords (pyLower variableHint)) year targetValue data]
  cases h : ((data.filter fun rw =>
      rowRelevant (variableKeywords (pyLower variableHint)) rw.1).flatMap
        fun rw => rowHitList year targetValue rw.1 rw.2).head? with
  | some r => simp [h]
  | none =>
    simp only [h, Option.none_or]
    cases year with
    | none => simp [pass2HitList]
    | some y => exact pass2_eq y targetValue data

/-! ### C2 — one contribution per group entry, not per table -/

/-- C2 counterexample: in a group spanning two tables where T2's row has
no 2023 column, the contributing-entry list for year 2023 (a year of the
group's year union) holds a single value, from T1 only — not "exactly one
value per table". -/
theorem claim2_counterexample :
    buildRowIndex ctCexTables = [("public debt", [ctE1, ctE2])]
  ∧ ctE1.tableId ≠ ctE2.tableId
  ∧ groupYears [ctE1, ctE2] = ["2022", "2023"]
  ∧ valuesForYear "2023" [ctE1, ctE2] = [⟨"T1", "Public debt", "2023", "11.0"⟩]
  ∧ ((valuesForYear "2023" [ctE1, ctE2]).filter (fun v => v.table_id == "T2")).length = 0 :=
  ⟨by decide, by decide, by decide, by decide, by decide⟩

/-- C2 as amended: for every year, each (table, row) entry of the group
contributes AT MOST one value — the value of the first column of that
row whose resolved year matches the year — and an entry whose row has no
column for that year contributes nothing; hence the list never holds more
values than the group has entries (and can hold fewer than the group has
tables, or several per table when a table owns several rows of the
group). -/
theorem claim2_amended (year : String) (entries : List CTEntry) :
    valuesForYear year entries
      = entries.filterMap (fun e =>
          (e.cols.find? (fun cv => extractYearFromCol cv.1 == some year)).map
            (fun cv => ⟨e.tableId, e.rowLabel, cv.1, cv.2⟩))
    ∧ (valuesForYear year entries).length ≤ entries.length := by
  have heq : valuesForYear year entries
      = entries.filterMap (fun e =>
          (e.cols.find? (fun cv => extractYearFromCol cv.1 == some year)).map
            (fun cv => ⟨e.tableId, e.rowLabel, cv.1, cv.2⟩)) := by
    induction entries with
    | nil => rfl
    | cons e rest ih =>
      cases h : e.cols.find? (fun cv => extractYearFromCol cv.1 == some year) with
      | some cv => simp only [valuesForYear, h, List.filterMap_cons, Option.map_some', ih]
      | none => simp only [valuesForYear, h, List.filterMap_cons, Option.map_none', ih]
  exact ⟨heq, heq ▸ List.length_filterMap_le _ _⟩

/-! ### C3 — anchor-based consistency status -/

/-- C3: with at least two contributing values of which at least two parse,
the status is CONSISTENT if and only if every parseable value is within
0.15 of the first parseable value (the anchor); the two-table "fiscal
balance" scenario yields CONSISTENT for values 1.2/1.3 and INCONSISTENT
for 1.2/1.5. -/
theorem claim3_anchor_consistency :
    (∀ (values : List CTValue) (n0 n1 : PyFloat) (ns : List PyFloat),
      2 ≤ values.length →
      (values.map (fun v => v.value)).filterMap normalizeNumber = n0 :: n1 :: ns →
      (groupYearStatus tol15 values = some "CONSISTENT"
        ↔ ∀ n ∈ n0 :: n1 :: ns, |n0.toQ - n.toQ| ≤ 15 / 100)
      ∧ (groupYearStatus tol15 values = some "CONSISTENT"
        ∨ groupYearStatus tol15 values = some "INCONSISTENT"))
  ∧ (checkCrossTableConsistency fiscalTablesA tol15).map (fun r => r.status) = ["CONSISTENT"]
  ∧ (checkCrossTableConsistency fiscalTablesB tol15).map (fun r => r.status)
      = ["INCONSISTENT"] := by
  refine ⟨fun values n0 n1 ns hlen hmap => ?_, by decide, by decide⟩
  have hkey : groupYearStatus tol15 values
      = some (if (n1 :: ns).all (fun n => n0.absSubLe n tol15) then "CONSISTENT"
              else "INCONSISTENT") := by
    rw [groupYearStatus, if_neg (by omega), hmap]
  constructor
  · rw [hkey]
    cases hb : (n1 :: ns).all (fun n => n0.absSubLe n tol15) with
    | true =>
      simp only [if_true, true_iff]
      have hall := List.all_eq_true.mp hb
      intro n hn
      rcases List.mem_cons.mp hn with rfl | hn'
      · simp only [sub_self, abs_zero]
        positivity
      · have := (PyFloat.absSubLe_iff n0 n tol15).mp (hall n hn')
        rwa [tol15_toQ] at this
    | false =>
      simp only [if_false, Option.some.injEq]
      constructor
      · intro hcontra
        exact absurd hcontra (by decide)
      · intro hall
        exfalso
        have : (n1 :: ns).all (fun n => n0.absSubLe n tol15) = true := by
          rw [List.all_eq_true]
          intro n hn'
          exact (PyFloat.absSubLe_iff n0 n tol15).mpr
            (tol15_toQ ▸ hall n (List.mem_cons_of_mem n0 hn'))
        rw [this] at hb
        exact Bool.true_eq_false.mp hb
  · rw [hkey]
    cases hb : (n1 :: ns).all (fun n => n0.absSubLe n tol15) with
    | true => exact Or.inl (by rw [if_pos rfl])
    | false => exact Or.inr (by rw [if_neg (by simp)])

/-- C3 witness: the general conjunct applied to the concrete 1.2/1.3
value list, whose parseable values are 1.2 and 1.3. -/
theorem claim3_anchor_consistency_witness :
    groupYearStatus tol15
      [⟨"T1", "Fiscal balance", "2023", "1.2"⟩, ⟨"T2", "Fiscal balance", "2023", "1.3"⟩]
      = some "CONSISTENT" := by
  have h := (claim3_anchor_consistency.1
    [⟨"T1", "Fiscal balance", "2023", "1.2"⟩, ⟨"T2", "Fiscal balance", "2023", "1.3"⟩]
    ⟨12, 1⟩ ⟨13, 1⟩ [] (by decide) (by decide)).1
  refine h.mpr ?_
  intro n hn
  rcases List.mem_cons.mp hn with rfl | hn'
  · norm_num [PyFloat.toQ, abs_le]
  · rcases List.mem_cons.mp hn' with rfl | hn''
    · norm_num [PyFloat.toQ, abs_le]
    · exact absurd hn'' (List.not_mem_nil n)

/-! ### Helper lemmas about the graph builder -/

theorem addNodeDedup_verifs (g : GState) (n : GraphNode) :
    (addNodeDedup g n).verifs = g.verifs := by
  rw [addNodeDedup]
  split <;> rfl

theorem addNodeDedup_edges (g : GState) (n : GraphNode) :
    (addNodeDedup g n).edges = g.edges := by
  rw [addNodeDedup]
  split <;> rfl

theorem afterVarNode_verifs (g : GState) (claimId : String) (vm : ValueMention) :
    (afterVarNode g claimId vm).verifs = g.verifs := by
  rw [afterVarNode]
  exact addNodeDedup_verifs g _

theorem tryTables_false (claimId varHint valueStr year : String) :
    ∀ (ts : List TableInput) (g : GState),
      (tryTables g claimId varHint valueStr year ts).2 = false →
      (tryTables g claimId varHint valueStr year ts).1 = g
  | [], _, _ => rfl
  | t :: rest, g, h => by
    cases hf : findValueInTable t.data varHint
        (if year != "unknown" then some year else none) valueStr with
    | some r =>
      obtain ⟨cv, mr, mc⟩ := r
      simp only [tryTables, hf] at h
      exact absurd h (by simp)
    | none =>
      simp only [tryTables, hf] at h ⊢
      exact tryTables_false claimId varHint valueStr year rest g h

theorem tryTables_true_len (claimId varHint valueStr year : String) :
    ∀ (ts : List TableInput) (g : GState),
      (tryTables g claimId varHint valueStr year ts).2 = true →
      ((tryTables g claimId varHint valueStr year ts).1).verifs.length
        = g.verifs.length + 1
  | [], g, h => absurd h (by simp [tryTables])
  | t :: rest, g, h => by
    cases hf : findValueInTable t.data varHint
        (if year != "unknown" then some year else none) valueStr with
    | some r =>
      obtain ⟨cv, mr, mc⟩ := r
      simp only [tryTables, hf]
      simp [addNodeDedup_verifs]
    | none =>
      simp only [tryTables, hf] at h ⊢
      exact tryTables_true_len claimId varHint valueStr year rest g h

theorem processValue_skip (tables : List TableInput) (claimId likelyTable : String)
    (g : GState) (vm : ValueMention) (h : vm.value = "" ∨ vm.value = "unknown") :
    processValue tables claimId likelyTable g vm = g := by
  rw [processValue]
  rcases h with h | h <;> simp [h]

theorem processValue_verifs_le (tables : List TableInput) (claimId likelyTable : String)
    (g : GState) (vm : ValueMention) :
    (processValue tables claimId likelyTable g vm).verifs.length
      ≤ g.verifs.length + 1 := by
  rw [processValue]
  split
  · exact Nat.le_succ _
  · rw [tryDeterministicMatch]
    cases hr : (tryTables (afterVarNode g claimId vm) claimId vm.var vm.value vm.year
        (searchTablesFor tables likelyTable)).2 with
    | true =>
      simp only [hr, if_true]
      rw [tryTables_true_len _ _ _ _ _ _ hr, afterVarNode_verifs]
    | false =>
      simp only [hr, if_false, Bool.false_eq_true]
      rw [List.length_append, tryTables_false _ _ _ _ _ _ hr, afterVarNode_verifs]
      simp

theorem foldl_processValue_le (tables : List TableInput) (claimId likelyTable : String) :
    ∀ (vms : List ValueMention) (g : GState),
      ((vms.foldl (processValue tables claimId likelyTable) g).verifs.length
        ≤ g.verifs.length + vms.length)
  | [], _ => Nat.le_refl _
  | vm :: rest, g => by
    rw [List.foldl_cons]
    have h1 := foldl_processValue_le tables claimId likelyTable rest
      (processValue tables claimId likelyTable g vm)
    have h2 := processValue_verifs_le tables claimId likelyTable g vm
    simp only [List.length_cons]
    omega

theorem foldl_processValue_skip (tables : List TableInput) (claimId likelyTable : String) :
    ∀ (vms : List ValueMention) (g : GState),
      (∀ vm ∈ vms, vm.value = "" ∨ vm.value = "unknown") →
      vms.foldl (processValue tables claimId likelyTable) g = g
  | [], _, _ => rfl
  | vm :: rest, g, h => by
    rw [List.foldl_cons,
      processValue_skip tables claimId likelyTable g vm (h vm (List.mem_cons_self vm rest))]
    exact foldl_processValue_skip tables claimId likelyTable rest g
      (fun v hv => h v (List.mem_cons_of_mem vm hv))

theorem claimHeader_nodes (tables : List TableInput) (g : GState) (idx : Nat)
    (c : ClaimInput) :
    (claimHeader tables g idx c).nodes
      = g.nodes ++ [⟨"claim_" ++ toString idx, "claim", strTake c.claim_text 120⟩] := by
  rw [claimHeader]
  split <;> rfl

theorem claimHeader_verifs (tables : List TableInput) (g : GState) (idx : Nat)
    (c : ClaimInput) :
    (claimHeader tables g idx c).verifs = g.verifs := by
  rw [claimHeader]
  split <;> rfl

theorem claimHeader_edges (tables : List TableInput) (g : GState) (idx : Nat)
    (c : ClaimInput) :
    (claimHeader tables g idx c).edges
      = g.edges ++
        (if c.likely_table != "unknown" && (lookupTable tables c.likely_table).isSome then
          [⟨"claim_" ++ toString idx, c.likely_table, "references"⟩]
        else ([] : List GraphEdge)) := by
  rw [claimHeader]
  split
  · rfl
  · simp

/-! ### C7 — qualitative claims and the one-result-per-mention bound -/

/-- C7: a claim with no value mentions appends exactly one QUALITATIVE
verification and only its claim node (no variable and no cell nodes); each
processed `ValueMention` appends at most one verification, so a claim
appends at most `max 1 (number of mentions)` verifications. -/
theorem claim7_qualitative_and_single_results :
    (∀ (tables : List TableInput) (g : GState) (idx : Nat) (c : ClaimInput),
      c.values_mentioned = [] →
      (processClaim tables g idx c).nodes
          = g.nodes ++ [⟨"claim_" ++ toString idx, "claim", strTake c.claim_text 120⟩]
        ∧ (processClaim tables g idx c).verifs
          = g.verifs ++ [{ claim_id := "claim_" ++ toString idx, status := "QUALITATIVE",
                           detail := "No numeric values to verify" }])
  ∧ (∀ (tables : List TableInput) (claimId likelyTable : String) (g : GState)
        (vm : ValueMention),
      (processValue tables claimId likelyTable g vm).verifs.length ≤ g.verifs.length + 1)
  ∧ (∀ (tables : List TableInput) (g : GState) (idx : Nat) (c : ClaimInput),
      (processClaim tables g idx c).verifs.length
        ≤ g.verifs.length + max 1 c.values_mentioned.length) := by
  refine ⟨fun tables g idx c h => ?_, processValue_verifs_le, fun tables g idx c => ?_⟩
  · rw [processClaim, if_pos (by rw [h]; rfl)]
    exact ⟨claimHeader_nodes tables g idx c, by rw [claimHeader_verifs]⟩
  · rw [processClaim]
    split
    · simp only [claimHeader_verifs, List.length_append, List.length_singleton]
      have := Nat.le_max_left 1 c.values_mentioned.length
      omega
    · have h1 := foldl_processValue_le tables ("claim_" ++ toString idx) c.likely_table
        c.values_mentioned (claimHeader tables g idx c)
      rw [claimHeader_verifs] at h1
      have h2 := Nat.le_max_right 1 c.values_mentioned.length
      omega

/-- C7 witness: the empty-mentions conjunct at a concrete claim, and the
bound at a two-mention claim. -/
theorem claim7_witness :
    (processClaim [] {} 0 ⟨"Growth strengthened.", "p1", "unknown", []⟩).verifs
      = [{ claim_id := "claim_0", status := "QUALITATIVE",
           detail := "No numeric values to verify" }]
  ∧ (processClaim [] {} 0 ⟨"Growth strengthened.", "p1", "unknown", []⟩).nodes
      = [⟨"claim_0", "claim", "Growth strengthened."⟩]
  ∧ (processClaim [] {} 0
      ⟨"Debt fell.", "p1", "unknown", [⟨"debt", "3.2", "2023"⟩, ⟨"gdp", "1.0", "2022"⟩]⟩).verifs.length
      ≤ 2 := by
  have h := claim7_qualitative_and_single_results.1 [] {} 0
    ⟨"Growth strengthened.", "p1", "unknown", []⟩ rfl
  have hb := claim7_qualitative_and_single_results.2.2 [] {} 0
    ⟨"Debt fell.", "p1", "unknown", [⟨"debt", "3.2", "2023"⟩, ⟨"gdp", "1.0", "2022"⟩]⟩
  refine ⟨by rw [h.2]; rfl, by rw [h.1]; rfl, by simpa using hb⟩

/-! ### C9 — empty/"unknown" value mentions are skipped entirely -/

/-- C9: a `ValueMention` whose value is empty or "unknown" is skipped
before any graph write, so a claim whose mentions are all such ends with
its claim node, an optional `references` edge, and zero verifications —
neither QUALITATIVE nor UNVERIFIABLE — and no variable nodes and no
`mentions_variable` edges. -/
theorem claim9_skipped_mentions (tables : List TableInput) (g : GState) (idx : Nat)
    (c : ClaimInput) (hne : c.values_mentioned ≠ [])
    (hall : ∀ vm ∈ c.values_mentioned, vm.value = "" ∨ vm.value = "unknown") :
    (processClaim tables g idx c).nodes
        = g.nodes ++ [⟨"claim_" ++ toString idx, "claim", strTake c.claim_text 120⟩]
      ∧ (processClaim tables g idx c).verifs = g.verifs
      ∧ (processClaim tables g idx c).edges
        = g.edges ++
          (if c.likely_table != "unknown" && (lookupTable tables c.likely_table).isSome then
            [⟨"claim_" ++ toString idx, c.likely_table, "references"⟩]
          else ([] : List GraphEdge)) := by
  have hiso : c.values_mentioned.isEmpty = false := by
    cases hl : c.values_mentioned with
    | nil => exact absurd hl hne
    | cons a as => rfl
  rw [processClaim, if_neg (by rw [hiso]; simp),
    foldl_processValue_skip tables ("claim_" ++ toString idx) c.likely_table
      c.values_mentioned (claimHeader tables g idx c) hall]
  exact ⟨claimHeader_nodes tables g idx c, claimHeader_verifs tables g idx c,
    claimHeader_edges tables g idx c⟩

/-- C9 witness: a claim whose two mentions carry an empty and an "unknown"
value produces no verification, no variable node and no edge. -/
theorem claim9_witness :
    (processClaim [] {} 0
        ⟨"Debt dynamics are unknown.", "p1", "unknown",
         [⟨"debt", "unknown", "2023"⟩, ⟨"gdp", "", "2022"⟩]⟩).verifs = []
  ∧ (processClaim [] {} 0
        ⟨"Debt dynamics are unknown.", "p1", "unknown",
         [⟨"debt", "unknown", "2023"⟩, ⟨"gdp", "", "2022"⟩]⟩).edges = [] := by
  have h := claim9_skipped_mentions [] {} 0
    ⟨"Debt dynamics are unknown.", "p1", "unknown",
     [⟨"debt", "unknown", "2023"⟩, ⟨"gdp", "", "2022"⟩]⟩
    (by simp)
    (by
      intro vm hvm
      rcases List.mem_cons.mp hvm with rfl | h'
      · exact Or.inr rfl
      · rcases List.mem_cons.mp h' with rfl | h''
        · exact Or.inl rfl
        · exact absurd h'' (List.not_mem_nil vm))
  exact ⟨by rw [h.2.1], by rw [h.2.2]; rfl⟩

/-! ### C8 — cell nodes are deduplicated by their composite key -/

/-- C8: the dedup-guarded node insertion leaves exactly one node with the
inserted id — the count of nodes carrying the id becomes
`max 1 (previous count)`, so a (table, row, column) triple keeps a single
cell node no matter how many claims resolve to it; concretely, two claims
resolving to the same (T1, "Public debt", "2023") triple leave one cell
node and two `verified_by` edges to it. -/
theorem claim8_cell_dedup :
    (∀ (g : GState) (n : GraphNode),
      ((addNodeDedup g n).nodes.filter (fun m => m.id == n.id)).length
        = max 1 (g.nodes.filter (fun m => m.id == n.id)).length)
  ∧ ((buildGraph dedupClaims dedupTables).nodes.filter
      (fun n => n.id == cellId "T1" "Public debt" "2023")).length = 1
  ∧ ((buildGraph dedupClaims dedupTables).edges.filter
      (fun e => e.type == "verified_by" && e.target == cellId "T1" "Public debt" "2023")).length
      = 2 := by
  refine ⟨fun g n => ?_, by decide, by decide⟩
  rw [addNodeDedup]
  cases h : g.nodes.any (fun m => m.id == n.id) with
  | true =>
    simp only [if_true]
    obtain ⟨m, hm, hmid⟩ := List.any_eq_true.mp h
    have hmem : m ∈ g.nodes.filter (fun x => x.id == n.id) :=
      List.mem_filter.mpr ⟨hm, hmid⟩
    have hpos := List.length_pos_of_mem hmem
    rw [Nat.max_eq_right hpos]
  | false =>
    simp only [if_false, Bool.false_eq_true]
    have hnil : g.nodes.filter (fun m => m.id == n.id) = [] :=
      List.filter_eq_nil_iff.mpr (List.any_eq_false.mp h)
    rw [List.filter_append, hnil]
    simp

/-! ### C10 — 80-character truncation of cell identifiers -/

/-- C10: cell identifiers are `"cell_<table>_<row>_<column>"` with spaces
replaced by underscores, truncated to 80 characters, so all identifiers
have length at most 80 and two distinct triples agreeing on the first 80
encoded characters share one identifier; concretely, the two distinct
triples (T1, long row, "2022") and (T1, long row, "2023") get the same
80-character id, and the two claims resolving to them leave a single
merged cell node with two `verified_by` edges. -/
theorem claim10_truncated_ids :
    (∀ t r c : String, (cellId t r c).length ≤ 80)
  ∧ ("2022" : String) ≠ "2023"
  ∧ cellId "T1" longRowLabel "2022" = cellId "T1" longRowLabel "2023"
  ∧ (cellId "T1" longRowLabel "2022").length = 80
  ∧ findValueInTable [(longRowLabel, [("2022", "1.1"), ("2023", "2.2")])] "debt"
      (some "2022") "1.1" = some ("1.1", longRowLabel, "2022")
  ∧ findValueInTable [(longRowLabel, [("2022", "1.1"), ("2023", "2.2")])] "debt"
      (some "2023") "2.2" = some ("2.2", longRowLabel, "2023")
  ∧ ((buildGraph truncClaims truncTables).nodes.filter
      (fun n => n.type == "cell")).length = 1
  ∧ ((buildGraph truncClaims truncTables).edges.filter
      (fun e => e.type == "verified_by")).length = 2 := by
  refine ⟨fun t r c => ?_, by decide, by decide, by decide, by decide, by decide,
    by decide, by decide⟩
  show (strTake (strReplace ("cell_" ++ t ++ "_" ++ r ++ "_" ++ c) " " "_") 80).length ≤ 80
  rw [strTake, String.length]
  calc (List.take 80 (strReplace ("cell_" ++ t ++ "_" ++ r ++ "_" ++ c) " " "_").data).length
      ≤ 80 := by rw [List.length_take]; exact Nat.min_le_left 80 _

end FactMesh
